import Mathlib

/-!
Verification of the quality-gated thumbnail generation pipeline
(`app.py` / `engine.py` / `validator.py`).

The Python code is shallowly embedded: its pure string processing is
translated character-by-character (Python `str` operations are modelled
over `List Char`), images are abstracted to their (width, height, mode,
solid-color) observable state, the filesystem is an association list from
paths to images, and every external model call (text completion, image
synthesis, vision audit, OCR) is an oracle supplied as input.
-/

namespace Thumb

/-! ## Python string primitives, over `List Char` -/

/-- Python whitespace for `str.strip()` / `str.split()`:
space, tab, newline, carriage return, vertical tab, form feed. -/
def pyIsSpace (c : Char) : Bool :=
  c = ' ' || c = '\t' || c = '\n' || c = '\r' || c = '\x0b' || c = '\x0c'

/-- `list.dropWhile`-from-the-right. Models Python `rstrip` for predicate `p`. -/
def rstripWhile (p : Char → Bool) (l : List Char) : List Char :=
  (l.reverse.dropWhile p).reverse

/-- Strip characters satisfying `p` from both ends. Models Python `strip`. -/
def stripWhile (p : Char → Bool) (l : List Char) : List Char :=
  rstripWhile p (l.dropWhile p)

/-- Python `s.strip()` (whitespace, both ends). -/
def pystrip (s : String) : String := String.mk (stripWhile pyIsSpace s.data)

/-- Python `s.strip(".")` (periods, both ends) — used for the mode line. -/
def pyStripDots (s : String) : String := String.mk (stripWhile (· = '.') s.data)

/-- Python `s.rstrip(".")` (periods, trailing only) — used for the image prompt. -/
def pyRstripDots (s : String) : String := String.mk (rstripWhile (· = '.') s.data)

/-- Python `s.lower()` (ASCII-relevant fragment). -/
def pyLower (s : String) : String := String.mk (s.data.map Char.toLower)

/-- Python `s.upper()` (ASCII-relevant fragment). -/
def pyUpper (s : String) : String := String.mk (s.data.map Char.toUpper)

/-- Python `s[:n]` (prefix of at most `n` code points). -/
def pyTake (n : Nat) (s : String) : String := String.mk (s.data.take n)

/-- Python `s.split(sep)` for a single-character separator: keeps empty pieces. -/
def splitOnChar (sep : Char) : List Char → List (List Char)
  | [] => [[]]
  | c :: cs =>
    if c = sep then [] :: splitOnChar sep cs
    else
      match splitOnChar sep cs with
      | [] => [[c]]
      | w :: ws => (c :: w) :: ws

/-- One step of `splitWs`: a non-space character `c` before remainder
`cs` (whose split is `r`) either starts a fresh word — at the end of the
string or just before a space — or extends the word beginning right
after it. -/
def splitWsCons (c : Char) (cs : List Char) (r : List (List Char)) : List (List Char) :=
  match cs, r with
  | [], _ => [[c]]
  | _ :: _, [] => [[c]]
  | d :: _, w :: ws => if pyIsSpace d then [c] :: w :: ws else (c :: w) :: ws

/-- Python `s.split()` (no argument): split on runs of whitespace,
discarding empty pieces (single right-to-left pass). -/
def splitWs : List Char → List (List Char)
  | [] => []
  | c :: cs => if pyIsSpace c then splitWs cs else splitWsCons c cs (splitWs cs)

/-- Python `" ".join(ws)`. -/
def joinSp : List (List Char) → List Char
  | [] => []
  | [w] => w
  | w :: ws => w ++ ' ' :: joinSp ws

/-- Python `s.split()` at `String` level. -/
def pysplit (s : String) : List String := (splitWs s.data).map String.mk

/-- Python `" ".join(ws)` at `String` level. -/
def joinWords (ws : List String) : String := String.mk (joinSp (ws.map String.data))

/-- Python `s.replace(pat, "")` (delete every occurrence of `pat`, left
to right, non-overlapping; `pat` nonempty).  `skip` counts matched
characters still to be consumed without re-matching. -/
def deleteAllAux (pat : List Char) : List Char → Nat → List Char
  | [], _ => []
  | _ :: cs, skip + 1 => deleteAllAux pat cs skip
  | c :: cs, 0 =>
    if pat ≠ [] && pat.isPrefixOf (c :: cs) then deleteAllAux pat cs (pat.length - 1)
    else c :: deleteAllAux pat cs 0

/-- Python `s.replace(pat, "")`. -/
def deleteAll (pat l : List Char) : List Char := deleteAllAux pat l 0

/-- Python `s.replace(pat, "")` at `String` level. -/
def pyDelete (s pat : String) : String := String.mk (deleteAll pat.data s.data)

/-- Python `pat in s` (substring test). -/
def hasInfix (pat : List Char) : List Char → Bool
  | [] => pat.isEmpty
  | c :: cs => pat.isPrefixOf (c :: cs) || hasInfix pat cs

/-! ## Images and filesystem

A PIL image is abstracted to its observable state for this spec: pixel
dimensions, color mode, and — for images created with a uniform fill and
never drawn on — that solid fill color. Drawing invalidates the solid
flag; pixel contents beyond that are not modelled. -/

structure Img where
  width : Nat
  height : Nat
  mode : String
  solid : Option (Nat × Nat × Nat)
  deriving Repr, DecidableEq

/-- `PIL.Image.new(mode, (w, h), color)`. -/
def pilNew (mode : String) (w h : Nat) (color : Nat × Nat × Nat) : Img :=
  ⟨w, h, mode, some color⟩

/-- `img.convert(mode)`: changes only the color mode. -/
def pilConvert (i : Img) (m : String) : Img := { i with mode := m }

/-- `img.resize((w, h))`: changes only the dimensions. -/
def pilResize (i : Img) (w h : Nat) : Img := { i with width := w, height := h }

/-- Any `ImageDraw` painting on an image (lines, text): affects only pixel
content, hence in this abstraction it only clears the solid-fill flag. -/
def pilDraw (i : Img) : Img := { i with solid := none }

/-- `PIL.Image.alpha_composite(a, b)`: requires two RGBA images of equal
size, else raises `ValueError`. -/
def pilAlphaComposite (a b : Img) : Except String Img :=
  if a.mode = "RGBA" ∧ b.mode = "RGBA" then
    if a.width = b.width ∧ a.height = b.height then
      .ok ⟨a.width, a.height, "RGBA", none⟩
    else .error "ValueError: images do not match"
  else .error "ValueError: image has wrong mode"

/-- The local filesystem, restricted to image files: newest write first. -/
def FS : Type := List (String × Img)

instance : DecidableEq FS := by unfold FS; infer_instance

/-- Read the current image at a path. -/
def fsLookup (fs : FS) (p : String) : Option Img :=
  match fs with
  | [] => none
  | (q, i) :: rest => if q = p then some i else fsLookup rest p

/-- `img.save(path)`: write (or overwrite) the file at `path`. -/
def fsWrite (fs : FS) (p : String) (i : Img) : FS := (p, i) :: fs

/-- `PIL.Image.open(path)`: errors when the file does not exist. -/
def pilOpen (fs : FS) (p : String) : Except String Img :=
  match fsLookup fs p with
  | some i => .ok i
  | none => .error "FileNotFoundError"

/-! ## `engine.py` — ThumbnailEngine -/

/-- `engine.decompose_prompt`, lines 53–54: the model reply is stripped,
split on newlines, each line stripped, blank lines discarded. -/
def promptLines (raw_reply : String) : List String :=
  (((splitOnChar '\n' (pystrip raw_reply).data).map
      (fun l => String.mk (stripWhile pyIsSpace l))).filter (fun l => l ≠ ""))

/-- Result type of `engine.decompose_prompt`. -/
structure GenerationPlan where
  title : String
  image_prompt : String
  mode : String
  deriving Repr, DecidableEq

/-- `engine.py` line 55:
`title = (lines[0].replace("Title: ", "").strip() or user_prompt) if lines else user_prompt`. -/
def titleLine (user_prompt : String) (lines : List String) : String :=
  match lines with
  | [] => user_prompt
  | l0 :: _ =>
    let t := pystrip (pyDelete l0 "Title: ")
    if t = "" then user_prompt else t

/-- `engine.py` lines 57–58: `title_words = title.split()[:5]`;
`title = " ".join(title_words) if title_words else user_prompt[:40]`. -/
def titleOf (user_prompt : String) (lines : List String) : String :=
  let title_words := (pysplit (titleLine user_prompt lines)).take 5
  if title_words = [] then pyTake 40 user_prompt else joinWords title_words

/-- `engine.py` lines 59–62: `image_prompt = lines[1] if len(lines) > 1
else user_prompt`, replaced by the raw user prompt when shorter than 15
characters or equal (lower-cased, trailing periods stripped) to a bare
mode keyword. -/
def imagePromptOf (user_prompt : String) (lines : List String) : String :=
  let image_prompt0 : String :=
    match lines with
    | _ :: l1 :: _ => l1
    | _ => user_prompt
  if image_prompt0.length < 15 ∨
      pyRstripDots (pyLower image_prompt0) = "dark" ∨
      pyRstripDots (pyLower image_prompt0) = "light" then
    user_prompt
  else image_prompt0

/-- `engine.py` lines 63–65:
`mode = (lines[2].lower() if len(lines) > 2 else "dark").strip(".")`,
coerced to `"dark"` unless it is exactly `"light"` or `"dark"`. -/
def modeOf (lines : List String) : String :=
  let mode0 := pyStripDots (match lines with
    | _ :: _ :: l2 :: _ => pyLower l2
    | _ => "dark")
  if mode0 = "light" ∨ mode0 = "dark" then mode0 else "dark"

/-- `engine.decompose_prompt`, lines 53–66: pure post-processing of the
text-completion model's raw reply into a `GenerationPlan`.  The network
call itself is the caller's oracle; `raw_reply` is
`response.choices[0].message.content`. -/
def decompose_prompt (user_prompt raw_reply : String) : GenerationPlan :=
  let lines := promptLines raw_reply
  ⟨titleOf user_prompt lines, imagePromptOf user_prompt lines, modeOf lines⟩

/-- One part of a Gemini candidate's content: either carries decoded
inline image bytes or not (`part.inline_data`). -/
structure RespPart where
  inline_data : Option Img
  deriving Repr, DecidableEq

/-- `candidate.content` of a Gemini response. -/
structure RespContent where
  parts : List RespPart
  deriving Repr, DecidableEq

/-- One candidate of a Gemini `generate_content` response. -/
structure RespCandidate where
  content : RespContent
  deriving Repr, DecidableEq

/-- A Gemini `generate_content` response. -/
structure GenResponse where
  candidates : List RespCandidate
  deriving Repr, DecidableEq

/-- `engine.generate_background`, lines 70–76: the creative prompt wrapped
with the hardcoded negative-constraint clause, plus the optional
per-attempt escalation constraint. -/
def fullPrompt (prompt : String) (extra_constraint : Option String) : String :=
  let base := "Create a high-quality video thumbnail background: " ++ prompt ++
    ". CRITICAL: Absolutely NO humans, NO people, NO faces, NO hands, NO characters. " ++
    "No text or words."
  match extra_constraint with
  | none => base
  | some e => base ++ " " ++ e

/-- The `for part in response.candidates[0].content.parts` loop of
`engine.generate_background`: the first part carrying inline image data. -/
def firstInlineImage : List RespPart → Option Img
  | [] => none
  | p :: ps =>
    match p.inline_data with
    | some i => some i
    | none => firstInlineImage ps

/-- `engine.generate_background`, lines 85–95: response handling.  Raises
when the response has no candidates or the first candidate's content has
no parts; otherwise scans the parts for inline image data; on a hit the
decoded image is converted to RGB, resized to 1280×720 and saved to
`temp_bg.png`; with no hit it raises.  Returns the saved path and the
updated filesystem. -/
def generate_background (resp : GenResponse) (fs : FS) : Except String (String × FS) :=
  match resp.candidates with
  | [] => .error "Generation failed: no content in response"
  | cand :: _ =>
    if cand.content.parts = [] then .error "Generation failed: no content in response"
    else
      match firstInlineImage cand.content.parts with
      | some img =>
        let final := pilResize (pilConvert img "RGB") 1280 720
        .ok ("temp_bg.png", fsWrite fs "temp_bg.png" final)
      | none =>
        .error "Generation failed: no image in response (model may not support image generation)"

/-- `engine.overlay_text`, lines 97–173.  Opens the background, converts
to RGBA and resizes to 1280×720; builds a same-size transparent RGBA
overlay; paints the gradient band and the stroked title onto the overlay
(pixel-content only — the wrapping, font probing and geometry computations
of lines 110–167 change no dimension and no mode); alpha-composites,
flattens to RGB and saves to `latest_thumbnail.png`. -/
def overlay_text (fs : FS) (bg_path : String) (_text _mode : String) :
    Except String (String × FS) :=
  match pilOpen fs bg_path with
  | .error e => .error e
  | .ok bg =>
    let img := pilResize (pilConvert bg "RGBA") 1280 720
    let overlay := pilDraw (pilNew "RGBA" img.width img.height (0, 0, 0))
    match pilAlphaComposite img overlay with
    | .error e => .error e
    | .ok final0 =>
      let final := pilConvert final0 "RGB"
      .ok ("latest_thumbnail.png", fsWrite fs "latest_thumbnail.png" final)

/-! ## `validator.py` — ThumbnailValidator -/

/-- `validator.check_visual_integrity`, lines 74–88: the audit-model call
either yields response text or raises.  On text: strip, upper-case, pass
iff it contains `"PASS"`.  On any exception: return the diagnostic marker
and pass. -/
def check_visual_integrity (audit_call : Except String String) : String × Bool :=
  match audit_call with
  | .ok text =>
    let result := pyUpper (pystrip text)
    (result, hasInfix "PASS".data result.data)
  | .error _ => ("API_ERROR (Pass by default)", true)

/-! ## `app.py` — the `/generate` endpoint -/

/-- `app.py` lines 43–47: the fixed escalation list. -/
def retry_strategies : List (Option String) :=
  [none,
   some "Abstract geometric shapes and tech patterns only. Strictly NO people or faces.",
   some "Minimalist solid color gradient. Completely abstract. Zero human subjects or silhouettes."]

/-- `app.py` line 48. -/
def max_retries : Nat := 3

/-- `app.py` line 62: `extra = retry_strategies[attempt] if attempt < len(retry_strategies) else None`. -/
def extraFor (attempt : Nat) : Option String :=
  if attempt < retry_strategies.length then retry_strategies.getD attempt none else none

/-- `app.py` line 89: an attempt is accepted iff all four checks pass. -/
def gateAccepts (is_text_ok is_mobile_readable is_contrast_ok is_clean_geometry : Bool) : Bool :=
  is_text_ok && is_mobile_readable && is_contrast_ok && is_clean_geometry

/-- `app.py` lines 93–100: the per-attempt failure reasons, in the fixed
check order. -/
def failureReasons (is_text_ok is_mobile_readable is_contrast_ok is_clean_geometry : Bool) :
    List String :=
  (if is_text_ok then [] else ["text_fidelity (OCR did not detect expected title)"]) ++
  (if is_mobile_readable then [] else ["mobile_readability (title not readable at 200px)"]) ++
  (if is_contrast_ok then [] else ["contrast (image contrast below threshold)"]) ++
  (if is_clean_geometry then [] else ["visual_integrity (LLM: faces/text/artifacts detected)"])

/-- The external world, per attempt index: the text-completion reply, the
image-synthesis response (as a function of the full prompt sent), the two
OCR-check verdicts, the contrast verdict, and the vision-audit reply.
Each model call may instead raise (`Except.error`). -/
structure Oracles where
  decomposeReply : Nat → Except String String
  bgResponse : Nat → String → Except String GenResponse
  textFidelity : Nat → Bool
  mobileReadable : Nat → Bool
  contrastOk : Nat → Bool
  auditReply : Nat → Except String String

/-- One iteration of the `for attempt in range(max_retries)` loop of
`app.py` lines 50–101: decompose, synthesize the background (under the
attempt's escalation constraint), overlay the title, run the four checks.
Returns `inl` with the success payload on acceptance, `inr` with that
attempt's failure reasons otherwise; any step's exception propagates
(there is no `try`/`except` in `generate`). -/
def attemptStep (o : Oracles) (prompt : String) (attempt : Nat) (fs : FS) :
    Except String ((String × Nat ⊕ List String) × FS) :=
  match o.decomposeReply attempt with
  | .error e => .error e
  | .ok raw =>
    let plan := decompose_prompt prompt raw
    match o.bgResponse attempt (fullPrompt plan.image_prompt (extraFor attempt)) with
    | .error e => .error e
    | .ok resp =>
      match generate_background resp fs with
      | .error e => .error e
      | .ok (bg, fs₁) =>
        match overlay_text fs₁ bg plan.title plan.mode with
        | .error e => .error e
        | .ok (final_img, fs₂) =>
          let is_text_ok := o.textFidelity attempt
          let is_mobile_readable := o.mobileReadable attempt
          let is_contrast_ok := o.contrastOk attempt
          let is_clean_geometry := (check_visual_integrity (o.auditReply attempt)).2
          if gateAccepts is_text_ok is_mobile_readable is_contrast_ok is_clean_geometry then
            .ok (.inl (final_img, attempt + 1), fs₂)
          else
            .ok (.inr (failureReasons is_text_ok is_mobile_readable
                        is_contrast_ok is_clean_geometry), fs₂)

/-- The JSON object returned by `/generate`. -/
inductive PipelineResult where
  | success (status url : String) (attempts : Nat)
  | failed (status error_type message : String)
      (failure_log : List String) (fallback_image : String)
  deriving Repr, DecidableEq

/-- `app.py` line 104. -/
def fallback_path : String := "outputs/fallback_solid_color.png"

/-- `app.py` line 107: `Image.new("RGB", (1280, 720), color=(45, 45, 55))`. -/
def fallbackImage : Img := pilNew "RGB" 1280 720 (45, 45, 55)

/-- `app.py` lines 105–108: create the solid-color fallback file only if
the path is not already occupied. -/
def ensureFallback (fs : FS) : FS :=
  match fsLookup fs fallback_path with
  | some _ => fs
  | none => fsWrite fs fallback_path fallbackImage

/-- The retry loop of `app.py` lines 50–115: `remaining` iterations of
`for attempt in range(max_retries)` left to run, `attempt` the current
0-based index, `reasons` the failure list of the previous iteration.  On
gate acceptance returns the success object; when the budget is exhausted,
materializes the fallback image and returns the structured failure object
built from the last attempt's reasons. -/
def generateLoop (o : Oracles) (prompt : String) :
    Nat → Nat → List String → FS → Except String (PipelineResult × FS)
  | 0, _, reasons, fs =>
    .ok (.failed "failed" "ConstraintViolation"
          "Quality constraints not met after 3 attempts." reasons fallback_path,
         ensureFallback fs)
  | remaining + 1, attempt, _, fs =>
    match attemptStep o prompt attempt fs with
    | .error e => .error e
    | .ok (.inl (url, n), fs') => .ok (.success "success" url n, fs')
    | .ok (.inr rs, fs') => generateLoop o prompt remaining (attempt + 1) rs fs'

/-- The `/generate` endpoint, `app.py` lines 37–115. -/
def generate (o : Oracles) (prompt : String) (fs : FS) :
    Except String (PipelineResult × FS) :=
  generateLoop o prompt max_retries 0 [] fs

/-- The synthesis response carries a decodable image: a candidate whose
parts include inline image data. -/
def bgOk (r : GenResponse) : Prop :=
  ∃ cand rest img, r.candidates = cand :: rest ∧
    firstInlineImage cand.content.parts = some img

/-- The external calls of attempt `i` all return instead of raising, and
the synthesis response carries an image (so `generate_background` does
not raise either). -/
def stepOracleOk (o : Oracles) (i : Nat) : Prop :=
  (∃ raw, o.decomposeReply i = .ok raw) ∧
  (∀ p, ∃ r, o.bgResponse i p = .ok r ∧ bgOk r)

/-- The gate verdict of attempt `i` under oracles `o`. -/
def attemptGate (o : Oracles) (i : Nat) : Bool :=
  gateAccepts (o.textFidelity i) (o.mobileReadable i) (o.contrastOk i)
    ((check_visual_integrity (o.auditReply i)).2)

/-- The failure-reason list of attempt `i` under oracles `o`. -/
def attemptReasons (o : Oracles) (i : Nat) : List String :=
  failureReasons (o.textFidelity i) (o.mobileReadable i) (o.contrastOk i)
    ((check_visual_integrity (o.auditReply i)).2)

/-- Shape of the structured objects `/generate` returns: the success
object carries status `"success"` and an attempt count between 1 and
`max_retries`; the failure object carries status `"failed"`, the fixed
error type, and the fallback path. -/
def wellFormedResult : PipelineResult → Prop
  | .success status _ attempts =>
      status = "success" ∧ 1 ≤ attempts ∧ attempts ≤ max_retries
  | .failed status error_type _ _ fallback_image =>
      status = "failed" ∧ error_type = "ConstraintViolation" ∧
        fallback_image = fallback_path

/-- An environment whose image-synthesis gateway returns a response with
no candidates (the model produced no content). -/
def noContentOracles : Oracles where
  decomposeReply := fun _ =>
    .ok "Silicon Dreams\nA titanium seed sprouting fiber optic roots in black soil\ndark"
  bgResponse := fun _ _ => .ok ⟨[]⟩
  textFidelity := fun _ => true
  mobileReadable := fun _ => true
  contrastOk := fun _ => true
  auditReply := fun _ => .ok "PASS"

/-- An environment where every call returns and every check passes. -/
def happyOracles : Oracles where
  decomposeReply := fun _ =>
    .ok "Neon Tides\nA bioluminescent ocean wave frozen mid-crash under starlight\ndark"
  bgResponse := fun _ _ => .ok ⟨[⟨⟨[⟨some ⟨800, 600, "RGB", none⟩⟩]⟩⟩]⟩
  textFidelity := fun _ => true
  mobileReadable := fun _ => true
  contrastOk := fun _ => true
  auditReply := fun _ => .ok "PASS"

/-- An environment where every call returns but the text-fidelity check
fails on every attempt, so the gate rejects all three attempts. -/
def failOracles : Oracles where
  decomposeReply := fun _ =>
    .ok "Epic AI Showdown\nA chrome monolith cracking under crimson storm light\ndark"
  bgResponse := fun _ _ => .ok ⟨[⟨⟨[⟨some ⟨640, 480, "RGB", none⟩⟩]⟩⟩]⟩
  textFidelity := fun _ => false
  mobileReadable := fun _ => true
  contrastOk := fun _ => true
  auditReply := fun _ => .ok "PASS"

/-! ## Lemmas on the string primitives -/

theorem dropWhile_head_not {p : Char → Bool} :
    ∀ {l : List Char} {c : Char} {cs : List Char},
      l.dropWhile p = c :: cs → p c = false := by
  intro l
  induction l with
  | nil => intro c cs h; simp [List.dropWhile] at h
  | cons a as ih =>
    intro c cs h
    by_cases hp : p a
    · rw [List.dropWhile_cons_of_pos hp] at h; exact ih h
    · rw [List.dropWhile_cons_of_neg hp] at h
      cases h; simpa using hp

theorem stripWhile_exists_not {p : Char → Bool} {l : List Char}
    (h : stripWhile p l ≠ []) : ∃ c ∈ stripWhile p l, p c = false := by
  unfold stripWhile rstripWhile at *
  rcases hd : (l.dropWhile p).reverse.dropWhile p with _ | ⟨c, cs⟩
  · simp [hd] at h
  · exact ⟨c, by simp [hd], dropWhile_head_not hd⟩

theorem splitWs_cons (c : Char) (cs : List Char) :
    splitWs (c :: cs) =
      if pyIsSpace c then splitWs cs else splitWsCons c cs (splitWs cs) := rfl

theorem splitWs_cons_space {c : Char} (cs : List Char) (hc : pyIsSpace c = true) :
    splitWs (c :: cs) = splitWs cs := by
  rw [splitWs_cons, if_pos hc]

theorem splitWs_singleton {c : Char} (hc : pyIsSpace c = false) :
    splitWs [c] = [[c]] := by
  rw [splitWs_cons, if_neg (by simp [hc])]
  rfl

theorem splitWs_cons_ne_nil {d : Char} (cs : List Char) (hd : pyIsSpace d = false) :
    splitWs (d :: cs) ≠ [] := by
  rw [splitWs_cons, if_neg (by simp [hd])]
  rcases cs with _ | ⟨e, cs'⟩
  · simp [splitWsCons]
  · rcases hs : splitWs (e :: cs') with _ | ⟨w, ws⟩ <;>
      by_cases he : pyIsSpace e <;> simp [splitWsCons, he, hs]

theorem splitWs_cons_cons_space {c d : Char} (cs : List Char)
    (hc : pyIsSpace c = false) (hd : pyIsSpace d = true) :
    splitWs (c :: d :: cs) = [c] :: splitWs (d :: cs) := by
  rw [splitWs_cons, if_neg (by simp [hc])]
  rcases hs : splitWs (d :: cs) with _ | ⟨w, ws⟩ <;> simp [splitWsCons, hd, hs]

theorem splitWs_cons_cons_word {c d : Char} {cs : List Char} {w : List Char}
    {ws : List (List Char)} (hc : pyIsSpace c = false) (hd : pyIsSpace d = false)
    (hs : splitWs (d :: cs) = w :: ws) :
    splitWs (c :: d :: cs) = (c :: w) :: ws := by
  rw [splitWs_cons, if_neg (by simp [hc]), hs]
  simp [splitWsCons, hd]

theorem splitWs_eq_nil_iff {l : List Char} :
    splitWs l = [] ↔ ∀ c ∈ l, pyIsSpace c = true := by
  induction l with
  | nil => simp [splitWs]
  | cons c cs ih =>
    by_cases hc : pyIsSpace c = true
    · rw [splitWs_cons_space cs hc, ih]
      constructor
      · intro h a ha
        rcases List.mem_cons.1 ha with rfl | ha
        · exact hc
        · exact h a ha
      · intro h a ha; exact h a (List.mem_cons_of_mem _ ha)
    · have hc' : pyIsSpace c = false := by simpa using hc
      constructor
      · intro h; exact absurd h (splitWs_cons_ne_nil cs hc')
      · intro h
        exact absurd (h c (List.mem_cons_self c cs)) (by simp [hc'])

theorem mem_splitWs :
    ∀ {l w : List Char}, w ∈ splitWs l → w ≠ [] ∧ ∀ c ∈ w, pyIsSpace c = false := by
  intro l
  induction l with
  | nil => intro w h; simp [splitWs] at h
  | cons c cs ih =>
    intro w h
    by_cases hc : pyIsSpace c = true
    · rw [splitWs_cons_space cs hc] at h
      exact ih h
    · have hc' : pyIsSpace c = false := by simpa using hc
      rcases cs with _ | ⟨d, cs'⟩
      · rw [splitWs_singleton hc'] at h
        rcases List.mem_singleton.1 h with rfl
        refine ⟨by simp, ?_⟩
        intro a ha
        rcases List.mem_singleton.1 ha with rfl
        exact hc'
      · by_cases hd : pyIsSpace d = true
        · rw [splitWs_cons_cons_space cs' hc' hd] at h
          rcases List.mem_cons.1 h with rfl | h
          · refine ⟨by simp, ?_⟩
            intro a ha
            rcases List.mem_singleton.1 ha with rfl
            exact hc'
          · exact ih h
        · have hd' : pyIsSpace d = false := by simpa using hd
          rcases hs : splitWs (d :: cs') with _ | ⟨w', ws⟩
          · exact absurd hs (splitWs_cons_ne_nil cs' hd')
          · rw [splitWs_cons_cons_word hc' hd' hs] at h
            rcases List.mem_cons.1 h with rfl | h
            · have hw' := ih (w := w') (by rw [hs]; exact List.mem_cons_self w' ws)
              refine ⟨by simp, ?_⟩
              intro a ha
              rcases List.mem_cons.1 ha with rfl | ha
              · exact hc'
              · exact hw'.2 a ha
            · exact ih (by rw [hs]; exact List.mem_cons_of_mem _ h)

theorem splitWs_word {w : List Char} (hw : w ≠ [])
    (hwc : ∀ c ∈ w, pyIsSpace c = false) : splitWs w = [w] := by
  induction w with
  | nil => exact absurd rfl hw
  | cons c cs ih =>
    have hc : pyIsSpace c = false := hwc c (List.mem_cons_self c cs)
    rcases cs with _ | ⟨d, cs'⟩
    · exact splitWs_singleton hc
    · have hd : pyIsSpace d = false :=
        hwc d (List.mem_cons_of_mem _ (List.mem_cons_self d cs'))
      have ihs : splitWs (d :: cs') = [d :: cs'] :=
        ih (by simp) (fun a ha => hwc a (List.mem_cons_of_mem _ ha))
      exact splitWs_cons_cons_word hc hd ihs

theorem splitWs_word_append {w : List Char} (t : List Char) (hw : w ≠ [])
    (hwc : ∀ c ∈ w, pyIsSpace c = false) :
    splitWs (w ++ ' ' :: t) = w :: splitWs t := by
  induction w with
  | nil => exact absurd rfl hw
  | cons c cs ih =>
    have hc : pyIsSpace c = false := hwc c (List.mem_cons_self c cs)
    rcases cs with _ | ⟨e, cs'⟩
    · show splitWs (c :: ' ' :: t) = [c] :: splitWs t
      rw [splitWs_cons_cons_space t hc (by simp [pyIsSpace])]
      rw [splitWs_cons_space t (by simp [pyIsSpace])]
    · have he : pyIsSpace e = false :=
        hwc e (List.mem_cons_of_mem _ (List.mem_cons_self e cs'))
      have ihs : splitWs (e :: cs' ++ ' ' :: t) = (e :: cs') :: splitWs t :=
        ih (by simp) (fun a ha => hwc a (List.mem_cons_of_mem _ ha))
      show splitWs (c :: (e :: (cs' ++ ' ' :: t))) = (c :: e :: cs') :: splitWs t
      exact splitWs_cons_cons_word hc he ihs

theorem splitWs_joinSp : ∀ {ws : List (List Char)},
    (∀ w ∈ ws, w ≠ [] ∧ ∀ c ∈ w, pyIsSpace c = false) → splitWs (joinSp ws) = ws := by
  intro ws
  induction ws with
  | nil => intro _; simp [joinSp, splitWs]
  | cons w ws ih =>
    intro h
    obtain ⟨hw, hwc⟩ := h w (List.mem_cons_self w ws)
    rcases ws with _ | ⟨w', ws'⟩
    · show splitWs w = [w]
      exact splitWs_word hw hwc
    · show splitWs (w ++ ' ' :: joinSp (w' :: ws')) = w :: w' :: ws'
      rw [splitWs_word_append _ hw hwc]
      rw [ih (fun x hx => h x (List.mem_cons_of_mem _ hx))]

theorem joinSp_ne_nil {w : List Char} (hw : w ≠ []) (ws : List (List Char)) :
    joinSp (w :: ws) ≠ [] := by
  cases ws <;> simp [joinSp, hw]

theorem string_eq_empty_iff {s : String} : s = "" ↔ s.data = [] := by
  cases s with
  | mk d =>
    constructor
    · intro h
      exact congrArg String.data h
    · intro h
      exact congrArg String.mk h

theorem string_mk_data (s : String) : String.mk s.data = s := by cases s; rfl

/-! ## Lemmas on `decompose_prompt` -/

theorem mem_pysplit {s t : String} (h : s ∈ pysplit t) :
    s.data ≠ [] ∧ ∀ c ∈ s.data, pyIsSpace c = false := by
  unfold pysplit at h
  obtain ⟨w, hw, rfl⟩ := List.mem_map.1 h
  exact mem_splitWs hw

theorem pysplit_joinWords {ws : List String}
    (h : ∀ s ∈ ws, s.data ≠ [] ∧ ∀ c ∈ s.data, pyIsSpace c = false) :
    pysplit (joinWords ws) = ws := by
  unfold pysplit joinWords
  have hpre : ∀ w ∈ ws.map String.data, w ≠ [] ∧ ∀ c ∈ w, pyIsSpace c = false := by
    intro w hw
    obtain ⟨s, hs, rfl⟩ := List.mem_map.1 hw
    exact h s hs
  show (splitWs (joinSp (ws.map String.data))).map String.mk = ws
  rw [splitWs_joinSp hpre, List.map_map]
  have hfun : String.mk ∘ String.data = id := funext string_mk_data
  rw [hfun, List.map_id]

theorem titleLine_cons (up l0 : String) (rest : List String) :
    titleLine up (l0 :: rest) =
      if pystrip (pyDelete l0 "Title: ") = "" then up
      else pystrip (pyDelete l0 "Title: ") := rfl

theorem titleLine_of_all_space {up : String} {lines : List String}
    (h : ∀ c ∈ (titleLine up lines).data, pyIsSpace c = true) :
    titleLine up lines = up := by
  rcases lines with _ | ⟨l0, rest⟩
  · rfl
  · rw [titleLine_cons] at h ⊢
    by_cases ht : pystrip (pyDelete l0 "Title: ") = ""
    · rw [if_pos ht]
    · rw [if_neg ht] at h ⊢
      exfalso
      have hne : (pystrip (pyDelete l0 "Title: ")).data ≠ [] := by
        intro hd
        exact ht (string_eq_empty_iff.2 hd)
      have hne' : stripWhile pyIsSpace (pyDelete l0 "Title: ").data ≠ [] := hne
      obtain ⟨c, hc, hcf⟩ := stripWhile_exists_not hne'
      have htr := h c hc
      rw [htr] at hcf
      exact Bool.noConfusion hcf

theorem titleOf_wordcount (up : String) (lines : List String) :
    (pysplit (titleOf up lines)).length ≤ 5 := by
  unfold titleOf
  dsimp only
  split
  · rename_i htw
    have h5 : (5 : Nat) ≠ 0 := by omega
    have hnil : pysplit (titleLine up lines) = [] := by
      rcases List.take_eq_nil_iff.1 htw with h | h
      · exact absurd h h5
      · exact h
    have hsw : splitWs (titleLine up lines).data = [] := by
      unfold pysplit at hnil
      exact List.map_eq_nil_iff.1 hnil
    have hall : ∀ c ∈ (titleLine up lines).data, pyIsSpace c = true :=
      splitWs_eq_nil_iff.1 hsw
    have hup : ∀ c ∈ up.data, pyIsSpace c = true := by
      have := titleLine_of_all_space hall
      rwa [this] at hall
    have : splitWs (pyTake 40 up).data = [] := by
      apply splitWs_eq_nil_iff.2
      intro c hc
      exact hup c (List.take_subset 40 up.data hc)
    unfold pysplit
    rw [this]
    simp
  · rename_i htw
    have hmem : ∀ s ∈ (pysplit (titleLine up lines)).take 5,
        s.data ≠ [] ∧ ∀ c ∈ s.data, pyIsSpace c = false := by
      intro s hs
      exact mem_pysplit (List.take_subset 5 _ hs)
    rw [pysplit_joinWords hmem]
    exact List.length_take_le 5 _

theorem titleOf_ne_empty {up : String} (hup : up ≠ "") (lines : List String) :
    titleOf up lines ≠ "" := by
  unfold titleOf
  dsimp only
  split
  · intro h
    apply hup
    apply string_eq_empty_iff.2
    have := string_eq_empty_iff.1 h
    unfold pyTake at this
    simp only at this
    rcases List.take_eq_nil_iff.1 this with h40 | hnil
    · exact absurd h40 (by omega)
    · exact hnil
  · rename_i htw
    rcases hw : (pysplit (titleLine up lines)).take 5 with _ | ⟨w, tws⟩
    · exact absurd hw htw
    intro h
    have hcontra := string_eq_empty_iff.1 h
    unfold joinWords at hcontra
    simp only at hcontra
    have hwmem : w ∈ (pysplit (titleLine up lines)).take 5 := by
      rw [hw]; exact List.mem_cons_self w tws
    have hwne : w.data ≠ [] := (mem_pysplit (List.take_subset 5 _ hwmem)).1
    exact joinSp_ne_nil hwne (tws.map String.data) hcontra

theorem decompose_title (up raw : String) :
    (decompose_prompt up raw).title = titleOf up (promptLines raw) := rfl

theorem decompose_image_prompt (up raw : String) :
    (decompose_prompt up raw).image_prompt = imagePromptOf up (promptLines raw) := rfl

theorem decompose_mode (up raw : String) :
    (decompose_prompt up raw).mode = modeOf (promptLines raw) := rfl

theorem modeOf_light_or_dark (lines : List String) :
    modeOf lines = "light" ∨ modeOf lines = "dark" := by
  unfold modeOf
  dsimp only
  split
  · rename_i h
    exact h
  · right; rfl

theorem modeOf_coerce (l0 l1 l2 : String) (rest : List String)
    (h1 : pyStripDots (pyLower l2) ≠ "light")
    (h2 : pyStripDots (pyLower l2) ≠ "dark") :
    modeOf (l0 :: l1 :: l2 :: rest) = "dark" := by
  unfold modeOf
  dsimp only
  rw [if_neg]
  intro h
  rcases h with h | h
  · exact h1 h
  · exact h2 h

theorem modeOf_short (lines : List String) (h : lines.length ≤ 2) :
    modeOf lines = "dark" := by
  rcases lines with _ | ⟨a, _ | ⟨b, _ | ⟨c, rest⟩⟩⟩
  · unfold modeOf
    dsimp only
    rw [if_pos (Or.inr (by decide))]
    decide
  · unfold modeOf
    dsimp only
    rw [if_pos (Or.inr (by decide))]
    decide
  · unfold modeOf
    dsimp only
    rw [if_pos (Or.inr (by decide))]
    decide
  · simp at h

/-! ## Lemmas on the pipeline -/

theorem fsLookup_fsWrite (fs : FS) (p q : String) (i : Img) :
    fsLookup (fsWrite fs p i) q = if p = q then some i else fsLookup fs q := rfl

theorem generate_background_ok {r : GenResponse} (hr : bgOk r) (fs : FS) :
    ∃ img, generate_background r fs =
      .ok ("temp_bg.png",
           fsWrite fs "temp_bg.png" (pilResize (pilConvert img "RGB") 1280 720)) := by
  obtain ⟨cand, rest, img, hc, hf⟩ := hr
  refine ⟨img, ?_⟩
  unfold generate_background
  rw [hc]
  have hne : ¬cand.content.parts = [] := by
    intro h; rw [h] at hf; simp [firstInlineImage] at hf
  dsimp only
  rw [if_neg hne, hf]

theorem overlay_text_ok {fs : FS} {bgp : String} {img : Img}
    (h : fsLookup fs bgp = some img) (t m : String) :
    overlay_text fs bgp t m =
      .ok ("latest_thumbnail.png",
           fsWrite fs "latest_thumbnail.png" ⟨1280, 720, "RGB", none⟩) := by
  unfold overlay_text pilOpen
  rw [h]
  rfl

theorem attemptStep_spec {o : Oracles} {i : Nat} (h : stepOracleOk o i)
    (up : String) (fs : FS) :
    ∃ fs', attemptStep o up i fs =
        .ok ((if attemptGate o i then .inl ("latest_thumbnail.png", i + 1)
              else .inr (attemptReasons o i)), fs') ∧
      ∀ q, q ≠ "temp_bg.png" → q ≠ "latest_thumbnail.png" →
        fsLookup fs' q = fsLookup fs q := by
  obtain ⟨⟨raw, hraw⟩, hbg⟩ := h
  obtain ⟨r, hr, hrok⟩ :=
    hbg (fullPrompt (decompose_prompt up raw).image_prompt (extraFor i))
  obtain ⟨img, hgb⟩ := generate_background_ok hrok fs
  have hbgfile :
      fsLookup (fsWrite fs "temp_bg.png" (pilResize (pilConvert img "RGB") 1280 720))
        "temp_bg.png" = some (pilResize (pilConvert img "RGB") 1280 720) := by
    rw [fsLookup_fsWrite, if_pos rfl]
  refine ⟨fsWrite (fsWrite fs "temp_bg.png" (pilResize (pilConvert img "RGB") 1280 720))
      "latest_thumbnail.png" ⟨1280, 720, "RGB", none⟩, ?_, ?_⟩
  · unfold attemptStep
    rw [hraw]
    dsimp only
    rw [hr]
    dsimp only
    rw [hgb]
    dsimp only
    rw [overlay_text_ok hbgfile]
    dsimp only
    unfold attemptGate attemptReasons
    by_cases hgate : gateAccepts (o.textFidelity i) (o.mobileReadable i) (o.contrastOk i)
        (check_visual_integrity (o.auditReply i)).2 = true
    · rw [if_pos hgate, if_pos hgate]
    · rw [if_neg hgate, if_neg hgate]
  · intro q hq1 hq2
    rw [fsLookup_fsWrite, if_neg (fun hh => hq2 hh.symm),
        fsLookup_fsWrite, if_neg (fun hh => hq1 hh.symm)]

theorem generateLoop_total (o : Oracles) (up : String) :
    ∀ (n : Nat), ∀ (attempt : Nat) (reasons : List String) (fs : FS),
      attempt + n = max_retries →
      (∀ i, i < max_retries → stepOracleOk o i) →
      ∃ res fs', generateLoop o up n attempt reasons fs = .ok (res, fs') ∧
        wellFormedResult res := by
  intro n
  induction n with
  | zero =>
    intro attempt reasons fs _ _
    exact ⟨_, _, rfl, rfl, rfl, rfl⟩
  | succ n ih =>
    intro attempt reasons fs hsum hok
    obtain ⟨fs', hstep, _⟩ := attemptStep_spec (hok attempt (by omega)) up fs
    by_cases hg : attemptGate o attempt = true
    · rw [if_pos hg] at hstep
      refine ⟨.success "success" "latest_thumbnail.png" (attempt + 1), fs', ?_, ?_⟩
      · simp only [generateLoop]
        rw [hstep]
      · exact ⟨rfl, by omega, by omega⟩
    · rw [if_neg hg] at hstep
      obtain ⟨res, fs'', hrec, hwf⟩ :=
        ih (attempt + 1) (attemptReasons o attempt) fs' (by omega) hok
      refine ⟨res, fs'', ?_, hwf⟩
      simp only [generateLoop]
      rw [hstep]
      exact hrec

theorem gate_false_reasons_ne_nil :
    ∀ t m c v : Bool, gateAccepts t m c v = false → failureReasons t m c v ≠ [] := by
  decide

theorem ensureFallback_lookup (fs : FS) :
    (fsLookup fs fallback_path = none →
      fsLookup (ensureFallback fs) fallback_path = some fallbackImage) ∧
    (∀ f, fsLookup fs fallback_path = some f →
      fsLookup (ensureFallback fs) fallback_path = some f) := by
  constructor
  · intro h
    unfold ensureFallback
    rw [h]
    rw [fsLookup_fsWrite, if_pos rfl]
  · intro f h
    unfold ensureFallback
    rw [h]
    exact h

/-- Stepping through the three failing attempts: the terminal failure
object aggregates the last attempt's reasons, and the filesystem seen by
`ensureFallback` agrees with the initial one at the fallback path. -/
theorem generate_exhaust_spec (o : Oracles) (up : String) (fs : FS)
    (hok : ∀ i, i < max_retries → stepOracleOk o i)
    (hfail : ∀ i, i < max_retries → attemptGate o i = false) :
    ∃ fs'', generate o up fs =
        .ok (.failed "failed" "ConstraintViolation"
              "Quality constraints not met after 3 attempts."
              (attemptReasons o 2) fallback_path, ensureFallback fs'') ∧
      fsLookup fs'' fallback_path = fsLookup fs fallback_path := by
  obtain ⟨fs1, h1, hp1⟩ := attemptStep_spec (hok 0 (by decide)) up fs
  obtain ⟨fs2, h2, hp2⟩ := attemptStep_spec (hok 1 (by decide)) up fs1
  obtain ⟨fs3, h3, hp3⟩ := attemptStep_spec (hok 2 (by decide)) up fs2
  rw [if_neg (by simp [hfail 0 (by decide)])] at h1
  rw [if_neg (by simp [hfail 1 (by decide)])] at h2
  rw [if_neg (by simp [hfail 2 (by decide)])] at h3
  refine ⟨fs3, ?_, ?_⟩
  · show generateLoop o up 3 0 [] fs = _
    simp only [generateLoop]
    rw [h1]
    dsimp only
    rw [h2]
    dsimp only
    rw [h3]
  · rw [hp3 _ (by decide) (by decide), hp2 _ (by decide) (by decide),
        hp1 _ (by decide) (by decide)]

/-! ## Claim theorems -/

/-- C3: for every attempt, the gate accepts iff all four check results
are true; an attempt is accepted iff its failure-reason list is empty;
each check's reason entry appears in `failure_reasons` iff that check
returned false; and flipping any single check from pass to fail (from
the all-pass state) flips the outcome to fail and produces exactly that
check's entry. -/
theorem c3_gate_combination :
    ∀ t m c v : Bool,
      (gateAccepts t m c v = true ↔ t = true ∧ m = true ∧ c = true ∧ v = true) ∧
      (gateAccepts t m c v = true ↔ failureReasons t m c v = []) ∧
      ("text_fidelity (OCR did not detect expected title)" ∈ failureReasons t m c v
        ↔ t = false) ∧
      ("mobile_readability (title not readable at 200px)" ∈ failureReasons t m c v
        ↔ m = false) ∧
      ("contrast (image contrast below threshold)" ∈ failureReasons t m c v
        ↔ c = false) ∧
      ("visual_integrity (LLM: faces/text/artifacts detected)" ∈ failureReasons t m c v
        ↔ v = false) ∧
      (gateAccepts false true true true = false ∧ failureReasons false true true true
        = ["text_fidelity (OCR did not detect expected title)"]) ∧
      (gateAccepts true false true true = false ∧ failureReasons true false true true
        = ["mobile_readability (title not readable at 200px)"]) ∧
      (gateAccepts true true false true = false ∧ failureReasons true true false true
        = ["contrast (image contrast below threshold)"]) ∧
      (gateAccepts true true true false = false ∧ failureReasons true true true false
        = ["visual_integrity (LLM: faces/text/artifacts detected)"]) := by
  decide

/-- C4: attempt `i` (0-based) passes `retry_strategies[i]` as the extra
synthesis constraint when `i < len(retry_strategies)` and `None`
otherwise: attempt 0 carries no extra constraint, attempts 1 and 2 carry
the two fixed escalation strings. -/
theorem c4_escalation_constraints :
    extraFor 0 = none ∧
    extraFor 1 = some
      "Abstract geometric shapes and tech patterns only. Strictly NO people or faces." ∧
    extraFor 2 = some
      "Minimalist solid color gradient. Completely abstract. Zero human subjects or silhouettes." ∧
    (∀ i, i < retry_strategies.length → extraFor i = retry_strategies.getD i none) ∧
    (∀ i, retry_strategies.length ≤ i → extraFor i = none) := by
  refine ⟨rfl, rfl, rfl, ?_, ?_⟩
  · intro i h
    unfold extraFor
    rw [if_pos h]
  · intro i h
    unfold extraFor
    rw [if_neg (by omega)]

/-- Witness for C4 at concrete attempt indices 1 (inside the list)
and 5 (past the list). -/
theorem c4_escalation_constraints_witness :
    extraFor 1 = retry_strategies.getD 1 none ∧ extraFor 5 = none :=
  ⟨c4_escalation_constraints.2.2.2.1 1 (by decide),
   c4_escalation_constraints.2.2.2.2 5 (by decide)⟩

/-- C5: `generate_background` raises exactly when the response has no
candidate content (no candidates, or an empty part list in the first
candidate — both yield the "no content" error) or when no part of the
first candidate carries inline image data (the "no image" error); on
every non-error run it converts the decoded image to RGB, resizes it to
exactly 1280×720 whatever its native size, and saves it at the fixed
path `temp_bg.png`, overwriting any file previously there. -/
theorem c5_generate_background_spec :
    ∀ (r : GenResponse) (fs : FS),
      ((∃ e, generate_background r fs = .error e) ↔
        (r.candidates = [] ∨ ∃ cand rest, r.candidates = cand :: rest ∧
          firstInlineImage cand.content.parts = none)) ∧
      (∀ cand rest img, r.candidates = cand :: rest →
        firstInlineImage cand.content.parts = some img →
        generate_background r fs =
          .ok ("temp_bg.png",
            fsWrite fs "temp_bg.png" (pilResize (pilConvert img "RGB") 1280 720)) ∧
        fsLookup (fsWrite fs "temp_bg.png" (pilResize (pilConvert img "RGB") 1280 720))
            "temp_bg.png" = some (pilResize (pilConvert img "RGB") 1280 720) ∧
        (pilResize (pilConvert img "RGB") 1280 720).width = 1280 ∧
        (pilResize (pilConvert img "RGB") 1280 720).height = 720 ∧
        (pilResize (pilConvert img "RGB") 1280 720).mode = "RGB") := by
  intro r fs
  constructor
  · constructor
    · intro ⟨e, he⟩
      rcases hc : r.candidates with _ | ⟨cand, rest⟩
      · exact Or.inl rfl
      · refine Or.inr ⟨cand, rest, rfl, ?_⟩
        rcases hf : firstInlineImage cand.content.parts with _ | img
        · rfl
        · obtain ⟨img', hgb⟩ := generate_background_ok ⟨cand, rest, img, hc, hf⟩ fs
          rw [hgb] at he
          exact absurd he (by simp)
    · intro h
      rcases h with h | ⟨cand, rest, hc, hf⟩
      · refine ⟨"Generation failed: no content in response", ?_⟩
        unfold generate_background
        rw [h]
      · unfold generate_background
        rw [hc]
        dsimp only
        by_cases hp : cand.content.parts = []
        · rw [if_pos hp]
          exact ⟨"Generation failed: no content in response", rfl⟩
        · rw [if_neg hp, hf]
          exact ⟨"Generation failed: no image in response (model may not support image generation)",
            rfl⟩
  · intro cand rest img hc hf
    have hgb : generate_background r fs =
        .ok ("temp_bg.png",
          fsWrite fs "temp_bg.png" (pilResize (pilConvert img "RGB") 1280 720)) := by
      unfold generate_background
      rw [hc]
      dsimp only
      have hp : ¬cand.content.parts = [] := by
        intro h; rw [h] at hf; simp [firstInlineImage] at hf
      rw [if_neg hp, hf]
    refine ⟨hgb, ?_, rfl, rfl, rfl⟩
    rw [fsLookup_fsWrite, if_pos rfl]

/-- Witness for C5: a response whose first candidate's second part
carries a 640×480 image is accepted and normalized to 1280×720; the
error characterization holds at an empty response. -/
theorem c5_generate_background_spec_witness :
    generate_background ⟨[⟨⟨[⟨none⟩, ⟨some ⟨640, 480, "L", none⟩⟩]⟩⟩]⟩ [] =
      .ok ("temp_bg.png",
        fsWrite [] "temp_bg.png"
          (pilResize (pilConvert ⟨640, 480, "L", none⟩ "RGB") 1280 720)) ∧
    (∃ e, generate_background ⟨[]⟩ [] = .error e) := by
  constructor
  · exact ((c5_generate_background_spec ⟨[⟨⟨[⟨none⟩, ⟨some ⟨640, 480, "L", none⟩⟩]⟩⟩]⟩ []).2
      ⟨⟨[⟨none⟩, ⟨some ⟨640, 480, "L", none⟩⟩]⟩⟩ [] ⟨640, 480, "L", none⟩ rfl rfl).1
  · exact ((c5_generate_background_spec ⟨[]⟩ []).1).2 (Or.inl rfl)

/-- C10: whatever the dimensions and mode of the background file and
whatever the title, `overlay_text` returns the fixed path
`latest_thumbnail.png` and writes there a 1280×720 RGB composite: the
background is re-resized to 1280×720 (after an RGBA conversion) before
compositing, so the output size never depends on the input size. -/
theorem c10_overlay_normalizes (fs : FS) (bgp : String) (img : Img)
    (h : fsLookup fs bgp = some img) (title mode : String) :
    overlay_text fs bgp title mode =
      .ok ("latest_thumbnail.png",
        fsWrite fs "latest_thumbnail.png" ⟨1280, 720, "RGB", none⟩) ∧
    fsLookup (fsWrite fs "latest_thumbnail.png" ⟨1280, 720, "RGB", none⟩)
        "latest_thumbnail.png" = some ⟨1280, 720, "RGB", none⟩ :=
  ⟨overlay_text_ok h title mode, rfl⟩

/-- Witness for C10 on a 333×57 grayscale background file. -/
theorem c10_overlay_normalizes_witness :
    overlay_text [("bg.png", ⟨333, 57, "L", none⟩)] "bg.png" "MY TITLE" "dark" =
      .ok ("latest_thumbnail.png",
        fsWrite [("bg.png", ⟨333, 57, "L", none⟩)] "latest_thumbnail.png"
          ⟨1280, 720, "RGB", none⟩) :=
  (c10_overlay_normalizes [("bg.png", ⟨333, 57, "L", none⟩)] "bg.png"
    ⟨333, 57, "L", none⟩ (by decide) "MY TITLE" "dark").1

/-- C6 as frozen is refuted by a third line of `".light"`: after
lower-casing and stripping only TRAILING periods it is `".light"`, not a
mode keyword, so the claim demands coercion to `"dark"` — but the code's
`strip(".")` removes LEADING periods too and yields mode `"light"`. -/
theorem c6_counterexample :
    (decompose_prompt "quantum computing explained"
        "Qubits Unleashed\nA glass lattice of light beams refracting in fog\n.light").mode
      = "light" ∧
    pyRstripDots (pyLower ".light") ≠ "light" ∧
    pyRstripDots (pyLower ".light") ≠ "dark" := by
  decide

/-- C6 (amended: the periods stripped from the mode line are leading and
trailing, not only trailing): every `GenerationPlan` has a title of at
most 5 whitespace-separated words and a mode that is exactly `"light"`
or `"dark"`; any third-line value that, after lower-casing and stripping
leading and trailing periods, is neither keyword is coerced to
`"dark"`, as is a missing third line. -/
theorem c6_plan_invariants :
    ∀ up raw : String,
      (pysplit (decompose_prompt up raw).title).length ≤ 5 ∧
      ((decompose_prompt up raw).mode = "light" ∨
        (decompose_prompt up raw).mode = "dark") ∧
      (∀ l0 l1 l2 rest, promptLines raw = l0 :: l1 :: l2 :: rest →
        pyStripDots (pyLower l2) ≠ "light" → pyStripDots (pyLower l2) ≠ "dark" →
        (decompose_prompt up raw).mode = "dark") ∧
      ((promptLines raw).length ≤ 2 → (decompose_prompt up raw).mode = "dark") := by
  intro up raw
  rw [decompose_title, decompose_mode]
  refine ⟨titleOf_wordcount up (promptLines raw), modeOf_light_or_dark _, ?_, ?_⟩
  · intro l0 l1 l2 rest hlines h1 h2
    rw [hlines]
    exact modeOf_coerce l0 l1 l2 rest h1 h2
  · intro h
    exact modeOf_short _ h

/-- Witness for C6: a three-line reply whose third line `"blue"` is
neither keyword yields mode `"dark"`, via the theorem. -/
theorem c6_plan_invariants_witness :
    (pysplit (decompose_prompt "space topic"
        "Galaxy Brain\nA nebula swirling inside a crystal skull\nblue").title).length ≤ 5 ∧
    (decompose_prompt "space topic"
        "Galaxy Brain\nA nebula swirling inside a crystal skull\nblue").mode = "dark" :=
  ⟨(c6_plan_invariants "space topic"
      "Galaxy Brain\nA nebula swirling inside a crystal skull\nblue").1,
   (c6_plan_invariants "space topic"
      "Galaxy Brain\nA nebula swirling inside a crystal skull\nblue").2.2.1
     "Galaxy Brain" "A nebula swirling inside a crystal skull" "blue" []
     (by decide) (by decide) (by decide)⟩

/-- C7 as frozen is refuted: with an empty model reply the code falls
back to the first 5 whitespace-separated words of the user prompt —
`user_prompt[:40]` is used only when that word list is empty — so for a
six-word prompt the title is NOT the first 40 characters of the prompt. -/
theorem c7_counterexample :
    (decompose_prompt "one two three four five six" "").title
        = "one two three four five" ∧
    pyTake 40 "one two three four five six" = "one two three four five six" ∧
    (decompose_prompt "one two three four five six" "").title
        ≠ pyTake 40 "one two three four five six" := by
  decide

/-- C7 (amended): when the model output is empty or missing (no nonblank
lines), the title falls back to the first 5 whitespace-separated words
of the user prompt, or to its first 40 characters when the prompt
contains no words; and the title is non-empty whenever the user prompt
is non-empty. -/
theorem c7_title_fallback :
    ∀ up raw : String,
      (promptLines raw = [] →
        (decompose_prompt up raw).title =
          if (pysplit up).take 5 = [] then pyTake 40 up
          else joinWords ((pysplit up).take 5)) ∧
      (up ≠ "" → (decompose_prompt up raw).title ≠ "") := by
  intro up raw
  constructor
  · intro h
    rw [decompose_title, h]
    rfl
  · intro h
    rw [decompose_title]
    exact titleOf_ne_empty h _

/-- Witness for C7 at a six-word prompt with an empty reply and at a
nonempty prompt with a nonempty reply. -/
theorem c7_title_fallback_witness :
    (decompose_prompt "one two three four five six" "").title =
      (if (pysplit "one two three four five six").take 5 = []
       then pyTake 40 "one two three four five six"
       else joinWords ((pysplit "one two three four five six").take 5)) ∧
    (decompose_prompt "My Topic" "A Title\nSome long visual line\nlight").title ≠ "" :=
  ⟨(c7_title_fallback "one two three four five six" "").1 (by decide),
   (c7_title_fallback "My Topic" "A Title\nSome long visual line\nlight").2 (by decide)⟩

/-- C8: the raw user prompt is substituted for the image prompt exactly
when the parsed second line is absent, shorter than 15 characters, or —
after lower-casing and stripping the trailing periods — is the bare word
`"dark"` or `"light"`; otherwise the second line itself is used. -/
theorem c8_image_prompt_substitution :
    ∀ up raw : String,
      (∀ l0 l1 rest, promptLines raw = l0 :: l1 :: rest →
        (decompose_prompt up raw).image_prompt =
          if l1.length < 15 ∨ pyRstripDots (pyLower l1) = "dark" ∨
              pyRstripDots (pyLower l1) = "light"
          then up else l1) ∧
      ((promptLines raw).length ≤ 1 → (decompose_prompt up raw).image_prompt = up) := by
  intro up raw
  constructor
  · intro l0 l1 rest hlines
    rw [decompose_image_prompt, hlines]
    rfl
  · intro h
    rw [decompose_image_prompt]
    rcases hl : promptLines raw with _ | ⟨a, _ | ⟨b, rest⟩⟩
    · unfold imagePromptOf
      dsimp only
      split <;> rfl
    · unfold imagePromptOf
      dsimp only
      split <;> rfl
    · rw [hl] at h
      simp at h

/-- Witness for C8: a second line of exactly `"dark."` (5 characters)
triggers the substitution with the raw user prompt. -/
theorem c8_image_prompt_substitution_witness :
    (decompose_prompt "How AI Changes Everything Forever"
        "Machines Win\ndark.\nlight").image_prompt =
      "How AI Changes Everything Forever" := by
  rw [(c8_image_prompt_substitution "How AI Changes Everything Forever"
        "Machines Win\ndark.\nlight").1 "Machines Win" "dark." ["light"] (by decide)]
  decide

/-- C1 as frozen is refuted: `generate` wraps no step in `try`/`except`,
so when the synthesis gateway returns a response with no candidates the
`generate_background` exception propagates to the caller instead of a
structured result — the whole request ends in an unhandled error. -/
theorem c1_counterexample :
    generate noContentOracles "The Future of Chips" [] =
      .error "Generation failed: no content in response" := by
  rfl

/-- C1 (amended): when no pipeline step raises — every external call of
every attempt returns, and each synthesis response carries an image —
`/generate` returns a well-formed structured result (the success object,
or the failure object after exhaustion); but an exception raised by
decomposition, synthesis, compositing or validation propagates unhandled
to the caller. -/
theorem c1_no_fault_structured (o : Oracles) (up : String) (fs : FS)
    (hok : ∀ i, i < max_retries → stepOracleOk o i) :
    ∃ res fs', generate o up fs = .ok (res, fs') ∧ wellFormedResult res :=
  generateLoop_total o up max_retries 0 [] fs rfl hok

/-- Witness for C1 in the all-pass environment: the run returns a
well-formed structured result. -/
theorem c1_no_fault_structured_witness :
    ∃ res fs', generate happyOracles "Ocean Mysteries" [] = .ok (res, fs') ∧
      wellFormedResult res :=
  c1_no_fault_structured happyOracles "Ocean Mysteries" []
    (fun _ _ => ⟨⟨_, rfl⟩, fun _ =>
      ⟨_, rfl, ⟨⟨[⟨some ⟨800, 600, "RGB", none⟩⟩]⟩⟩, [], ⟨800, 600, "RGB", none⟩,
        rfl, rfl⟩⟩)

/-- C2: when every external call returns but all 3 attempts fail the
validation gate, `/generate` returns the failure object with status
`"failed"`, error type `"ConstraintViolation"`, a non-empty failure log
(the last attempt's reasons), and fallback image
`outputs/fallback_solid_color.png`; after the call that path holds an
image — the 1280×720 solid (45,45,55) fallback, created exactly when the
path was previously empty (an existing file is left untouched). -/
theorem c2_exhaustion (o : Oracles) (up : String) (fs : FS)
    (hok : ∀ i, i < max_retries → stepOracleOk o i)
    (hfail : ∀ i, i < max_retries → attemptGate o i = false) :
    ∃ log fs', generate o up fs =
        .ok (.failed "failed" "ConstraintViolation"
              "Quality constraints not met after 3 attempts." log fallback_path, fs') ∧
      log ≠ [] ∧
      (fsLookup fs' fallback_path).isSome = true ∧
      (fsLookup fs fallback_path = none →
        fsLookup fs' fallback_path = some fallbackImage) ∧
      (∀ f, fsLookup fs fallback_path = some f →
        fsLookup fs' fallback_path = some f) ∧
      fallbackImage = ⟨1280, 720, "RGB", some (45, 45, 55)⟩ := by
  obtain ⟨fs'', hgen, hpres⟩ := generate_exhaust_spec o up fs hok hfail
  refine ⟨attemptReasons o 2, ensureFallback fs'', hgen, ?_, ?_, ?_, ?_, rfl⟩
  · exact gate_false_reasons_ne_nil _ _ _ _ (hfail 2 (by decide))
  · rcases hcase : fsLookup fs'' fallback_path with _ | f
    · rw [(ensureFallback_lookup fs'').1 hcase]
      rfl
    · rw [(ensureFallback_lookup fs'').2 f hcase]
      rfl
  · intro h
    exact (ensureFallback_lookup fs'').1 (by rw [hpres, h])
  · intro f h
    exact (ensureFallback_lookup fs'').2 f (by rw [hpres, h])

/-- Witness for C2 in the all-fail environment, on an initially empty
filesystem. -/
theorem c2_exhaustion_witness :
    ∃ log fs', generate failOracles "AI Wins" [] =
        .ok (.failed "failed" "ConstraintViolation"
              "Quality constraints not met after 3 attempts." log fallback_path, fs') ∧
      log ≠ [] ∧
      (fsLookup fs' fallback_path).isSome = true ∧
      (fsLookup ([] : FS) fallback_path = none →
        fsLookup fs' fallback_path = some fallbackImage) ∧
      (∀ f, fsLookup ([] : FS) fallback_path = some f →
        fsLookup fs' fallback_path = some f) ∧
      fallbackImage = ⟨1280, 720, "RGB", some (45, 45, 55)⟩ :=
  c2_exhaustion failOracles "AI Wins" []
    (fun _ _ => ⟨⟨_, rfl⟩, fun _ =>
      ⟨_, rfl, ⟨⟨[⟨some ⟨640, 480, "RGB", none⟩⟩]⟩⟩, [], ⟨640, 480, "RGB", none⟩,
        rfl, rfl⟩⟩)
    (fun _ _ => rfl)

theorem hasInfix_iff {pat : List Char} :
    ∀ {l : List Char}, hasInfix pat l = true ↔ pat <:+: l := by
  intro l
  induction l with
  | nil =>
    show pat.isEmpty = true ↔ _
    rw [List.isEmpty_iff, List.infix_nil]
  | cons c cs ih =>
    show (pat.isPrefixOf (c :: cs) || hasInfix pat cs) = true ↔ _
    rw [Bool.or_eq_true, List.isPrefixOf_iff_prefix, ih, List.infix_cons_iff]

theorem toUpper_space {c : Char} (h : pyIsSpace c = true) : c.toUpper = c := by
  simp [pyIsSpace] at h
  rcases h with ((((rfl | rfl) | rfl) | rfl) | rfl) | rfl <;> decide

theorem infix_map_dropWhile {pat : List Char} (hne : pat ≠ [])
    (hpat : ∀ x ∈ pat, pyIsSpace x = false) :
    ∀ {l : List Char}, pat <:+: l.map Char.toUpper →
      pat <:+: (l.dropWhile pyIsSpace).map Char.toUpper := by
  intro l
  induction l with
  | nil =>
    intro h
    simpa using h
  | cons c cs ih =>
    intro h
    by_cases hc : pyIsSpace c = true
    · rw [List.dropWhile_cons_of_pos hc]
      apply ih
      rw [List.map_cons] at h
      rcases List.infix_cons_iff.1 h with hpre | hinf
      · exfalso
        rcases pat with _ | ⟨p0, pat'⟩
        · exact hne rfl
        · obtain ⟨t, ht⟩ := hpre
          have hp0 : p0 = Char.toUpper c := by
            injection ht
          have hsp : pyIsSpace p0 = false := hpat p0 (List.mem_cons_self _ _)
          rw [hp0, toUpper_space hc, hc] at hsp
          exact Bool.noConfusion hsp
      · exact hinf
    · rw [List.dropWhile_cons_of_neg hc]
      rwa [List.map_cons] at h

theorem infix_map_stripWhile {pat : List Char} (hne : pat ≠ [])
    (hpat : ∀ x ∈ pat, pyIsSpace x = false) {l : List Char}
    (h : pat <:+: l.map Char.toUpper) :
    pat <:+: (stripWhile pyIsSpace l).map Char.toUpper := by
  have step1 : pat <:+: (l.dropWhile pyIsSpace).map Char.toUpper :=
    infix_map_dropWhile hne hpat h
  have hrev : pat.reverse <:+: ((l.dropWhile pyIsSpace).reverse).map Char.toUpper := by
    rw [List.map_reverse]
    exact List.reverse_infix.2 step1
  have hne' : pat.reverse ≠ [] := by
    intro hr
    exact hne (by simpa using congrArg List.reverse hr)
  have hpat' : ∀ x ∈ pat.reverse, pyIsSpace x = false := by
    intro x hx
    exact hpat x (List.mem_reverse.1 hx)
  have step2 := infix_map_dropWhile hne' hpat' hrev
  have h3 := List.reverse_infix.mpr step2
  rw [List.reverse_reverse] at h3
  show pat <:+: (stripWhile pyIsSpace l).map Char.toUpper
  unfold stripWhile rstripWhile
  rw [List.map_reverse]
  exact h3

theorem stripWhile_isInfix (p : Char → Bool) (l : List Char) :
    stripWhile p l <:+: l := by
  unfold stripWhile rstripWhile
  have h1 : ((l.dropWhile p).reverse.dropWhile p).reverse <+: l.dropWhile p := by
    have h2 : (l.dropWhile p).reverse.dropWhile p <:+ (l.dropWhile p).reverse :=
      List.dropWhile_suffix p
    have h3 := List.reverse_prefix.mpr h2
    rwa [List.reverse_reverse] at h3
  exact h1.isInfix.trans (List.dropWhile_suffix p).isInfix

/-- C9: an audit reply that returns text passes iff the upper-cased text
contains `"PASS"` (the code's leading/trailing-whitespace strip cannot
create or destroy an occurrence); an audit call that raises yields the
diagnostic marker and passes, so an audit-service error never rejects
the attempt. -/
theorem c9_visual_integrity :
    (∀ text : String,
      ((check_visual_integrity (.ok text)).2 = true ↔
        "PASS".data <:+: (pyUpper text).data)) ∧
    (∀ e : String,
      check_visual_integrity (.error e) = ("API_ERROR (Pass by default)", true)) := by
  constructor
  · intro text
    show hasInfix "PASS".data (pyUpper (pystrip text)).data = true ↔ _
    rw [hasInfix_iff]
    show "PASS".data <:+: (stripWhile pyIsSpace text.data).map Char.toUpper ↔
      "PASS".data <:+: text.data.map Char.toUpper
    constructor
    · intro h
      exact h.trans ((stripWhile_isInfix pyIsSpace text.data).map Char.toUpper)
    · intro h
      exact infix_map_stripWhile (by decide) (by decide) h
  · intro e
    rfl

/-- Witness for C9: a reply whose text contains PASS inside padding is
accepted, and a raised audit call yields the marker and a pass. -/
theorem c9_visual_integrity_witness :
    ((check_visual_integrity (.ok "  verdict: PASS. ")).2 = true ↔
      "PASS".data <:+: (pyUpper "  verdict: PASS. ").data) ∧
    check_visual_integrity (.error "timeout") = ("API_ERROR (Pass by default)", true) :=
  ⟨c9_visual_integrity.1 "  verdict: PASS. ", c9_visual_integrity.2 "timeout"⟩

end Thumb
